import Mathlib

/-!
Verification of the Reddit_MLOPS fetch-orchestration core against its
natural-language specification.

The definitions below are a shallow embedding of the repository's Python
sources, primarily `scripts/historic_reddit_data_pull.py` (the orchestrator
`download_subreddit_by_date`, the window generator `get_date_range`, the
LIVE/ARCHIVE fallback and filtering logic, and the conditional upload), and
`lambda/reddit_pipeline/lambda_function.py` (`RedditS3Pipeline.run_pipeline`).

Modelling conventions:
- Timestamps are epoch seconds as `Int` (Python `datetime` values compared
  and subtracted; `timedelta.days` is floor division by 86400, i.e.
  `Int.fdiv`).  `datetime.now()` is modelled as a fixed `now` field of the
  environment.
- The external clients (praw Reddit listing/detail, Pushshift search) are a
  `SourceEnv` of functions returning `Except String`, an exception being the
  `.error` case.
- Python truthiness of `submission.removed_by_category` (an optional string)
  is modelled as a `Bool` field; truthiness of `submission.selftext` is the
  string being nonempty; truthiness of a list is it being nonempty.
- `upvote_ratio` (a Python float) is carried as `Rat`; no claim depends on
  its arithmetic.
-/

/-- One raw submission as exposed by the source client (the praw attributes
read by the code: id, title, selftext, author, score, created_utc, url,
num_comments, upvote_ratio, removed_by_category). -/
structure Submission where
  id : String
  title : String
  selftext : String
  author : String
  score : Int
  created_utc : Int
  url : String
  num_comments : Int
  upvote_ratio : Rat
  removed_by_category : Bool
deriving Repr, DecidableEq

/-- One `story` dict as built in both branches of
`download_subreddit_by_date` (keys: title, text, author, score,
created_utc, url, id, num_comments, upvote_ratio). -/
structure Story where
  title : String
  text : String
  author : String
  score : Int
  created_utc : Int
  url : String
  id : String
  num_comments : Int
  upvote_ratio : Rat
deriving Repr, DecidableEq

/-- The `story = { ... }` dict construction: identical field-for-field in
the LIVE branch (lines 155-165) and the ARCHIVE branch (lines 191-201);
both store the submission's own `created_utc` into the story. -/
def mkStory (s : Submission) : Story :=
  { title := s.title
    text := s.selftext
    author := s.author
    score := s.score
    created_utc := s.created_utc
    url := s.url
    id := s.id
    num_comments := s.num_comments
    upvote_ratio := s.upvote_ratio }

/-- The shared eligibility test
`if not submission.removed_by_category and submission.selftext:`
(lines 154 and 190). -/
def eligible (s : Submission) : Bool :=
  !s.removed_by_category && s.selftext != ""

/-- Which upstream source a call went to; used to record the query trace of
one window. -/
inductive Source where
  | live
  | archive
deriving Repr, DecidableEq

/-- The external world consumed by `download_subreddit_by_date`:
`initClients` models `initialize_reddit()` / `PushshiftAPI()` construction
(line 131-132, may raise, e.g. on missing credentials), `liveNew` models
`reddit.subreddit(name).new(limit=1000)` issued while processing the window
with the given start, `archiveSearch` models
`api.search_submissions(subreddit=..., after=..., before=..., limit=None)`,
and `liveDetail` models `reddit.submission(id=...)` together with the
attribute accesses on it.  `now` models `datetime.now()`. -/
structure SourceEnv where
  now : Int
  initClients : Except String Unit
  liveNew : Int → Except String (List Submission)
  archiveSearch : Int → Int → Except String (List String)
  liveDetail : String → Except String Submission

/-- The recency test `(datetime.now() - start).days < 90` (line 146);
`timedelta.days` floors, hence `Int.fdiv`. -/
def inHorizon (now wstart : Int) : Bool :=
  (now - wstart).fdiv 86400 < 90

/-- The LIVE branch body (lines 150-167): iterate the recent listing, keep a
submission when its timestamp is in `[wstart, wend)` and it passes the
eligibility test, and append `mkStory` of it. -/
def liveStories (subs : List Submission) (wstart wend : Int) : List Story :=
  subs.filterMap fun s =>
    if wstart ≤ s.created_utc ∧ s.created_utc < wend then
      if eligible s then some (mkStory s) else none
    else none

/-- The ARCHIVE enrichment loop (lines 187-208): for each identifier, look
up the detail; on an exception skip the identifier (`except ... continue`),
otherwise keep the record when it passes the eligibility test.  No window
check is performed in this branch. -/
def archiveStories (detail : String → Except String Submission)
    (ids : List String) : List Story :=
  ids.filterMap fun i =>
    match detail i with
    | .error _ => none
    | .ok s => if eligible s then some (mkStory s) else none

/-- One iteration of the window loop up to the upload decision
(lines 144-208): LIVE pass when the window start is within the horizon,
then ARCHIVE exactly when the story list is still empty
(`if not stories:`, line 172).  The second component is the trace of
sources queried; an `.error` result is an exception escaping to the
per-window handler (line 222). -/
def processWindow (env : SourceEnv) (wstart wend : Int) :
    Except String (List Story) × List Source :=
  let livePhase : Except String (List Story) × List Source :=
    if inHorizon env.now wstart then
      match env.liveNew wstart with
      | .error e => (.error e, [.live])
      | .ok subs => (.ok (liveStories subs wstart wend), [.live])
    else (.ok [], [])
  match livePhase with
  | (.error e, tr) => (.error e, tr)
  | (.ok stories, tr) =>
    if stories.isEmpty then
      match env.archiveSearch wstart wend with
      | .error e => (.error e, tr ++ [.archive])
      | .ok ids => (.ok (archiveStories env.liveDetail ids), tr ++ [.archive])
    else (.ok stories, tr)

/-- `get_date_range` (lines 76-80): yield `(current, current + 1 day)`
while `current < end_date`. -/
def get_date_range (start_date end_date : Int) : List (Int × Int) :=
  if start_date < end_date then
    (start_date, start_date + 86400) :: get_date_range (start_date + 86400) end_date
  else []
termination_by (end_date - start_date).toNat
decreasing_by omega

/-- The storage key of a window's batch.  The real key is
`reddit_data/{subreddit}/{start.strftime(%Y%m%d)}.json` (lines 105, 214);
the date component is abstracted as the epoch-day index of the window
start, which renders the same (community, calendar day) identification. -/
def batchKey (subreddit : String) (wstart : Int) : String × Int :=
  (subreddit, wstart.fdiv 86400)

/-- The window loop of `download_subreddit_by_date` (lines 139-226),
returning the sequence of batches written: a window whose processing raised
is logged and skipped (`except ... continue`, lines 222-226); a window with
an empty story list writes nothing (lines 216-217); otherwise one batch is
written at the window's key (lines 211-215). -/
def runBatches (env : SourceEnv) (subreddit : String) :
    List (Int × Int) → List ((String × Int) × List Story)
  | [] => []
  | w :: ws =>
    match (processWindow env w.1 w.2).1 with
    | .error _ => runBatches env subreddit ws
    | .ok stories =>
      if stories.isEmpty then runBatches env subreddit ws
      else (batchKey subreddit w.1, stories) :: runBatches env subreddit ws

/-- `download_subreddit_by_date` (lines 130-226): client construction first
(its exception propagates — it is outside the loop), then the window loop,
which never raises. -/
def download_subreddit_by_date (env : SourceEnv) (subreddit : String)
    (start_date end_date : Int) :
    Except String (List ((String × Int) × List Story)) :=
  match env.initClients with
  | .error e => .error e
  | .ok _ => .ok (runBatches env subreddit (get_date_range start_date end_date))

/-- The identifiers the environment can contribute to one window's batch:
the ids of the LIVE-pass survivors and of the ARCHIVE-pass survivors for
that window.  Whatever `processWindow` emits is drawn from these. -/
def windowStoryIds (env : SourceEnv) (wstart wend : Int) : List String :=
  (match env.liveNew wstart with
   | .ok subs => (liveStories subs wstart wend).map Story.id
   | .error _ => []) ++
  (match env.archiveSearch wstart wend with
   | .ok ids => (archiveStories env.liveDetail ids).map Story.id
   | .error _ => [])

/-- The guard of the DAG's `upload_to_s3`
(`dags/reddit_scraper_dag.py`, lines 100-116): an empty story list returns
without touching the store, otherwise one entry is written at the key. -/
def dag_upload_to_s3 (stories : List Story) (key : String × Int)
    (store : List ((String × Int) × List Story)) :
    List ((String × Int) × List Story) :=
  if stories.isEmpty then store else store ++ [(key, stories)]

/-- An eligible submission created at second 100 (inside the day window
`[0, 86400)`). -/
def subA : Submission :=
  { id := "a", title := "ta", selftext := "body a", author := "ua", score := 3
    created_utc := 100, url := "http://a", num_comments := 2, upvote_ratio := 1
    removed_by_category := false }

/-- An environment whose LIVE listing returns `subA` and whose archive is
empty; `now = 0`, so the window starting at 0 is within the horizon. -/
def cEnvLive : SourceEnv :=
  { now := 0
    initClients := .ok ()
    liveNew := fun _ => .ok [subA]
    archiveSearch := fun _ _ => .ok []
    liveDetail := fun _ => .error "nope" }

/-- An eligible submission created at second 200000 — outside the window
`[0, 86400)`. -/
def subOut : Submission :=
  { id := "x", title := "tx", selftext := "body x", author := "ux", score := 1
    created_utc := 200000, url := "http://x", num_comments := 0, upvote_ratio := 1
    removed_by_category := false }

/-- An environment 100 days after the window start (outside the horizon)
whose archive search returns one identifier whose detail record is
`subOut`. -/
def cEnvArchOut : SourceEnv :=
  { now := 8640000
    initClients := .ok ()
    liveNew := fun _ => .ok []
    archiveSearch := fun _ _ => .ok ["x"]
    liveDetail := fun _ => .ok subOut }

/-- An eligible submission created at second 100 (inside `[0, 86400)`),
returned by an archive lookup. -/
def subIn : Submission :=
  { id := "y", title := "ty", selftext := "body y", author := "uy", score := 1
    created_utc := 100, url := "http://y", num_comments := 0, upvote_ratio := 1
    removed_by_category := false }

/-- An out-of-horizon environment whose archive returns one identifier
whose detail record `subIn` lies inside the window. -/
def cEnvArchIn : SourceEnv :=
  { now := 8640000
    initClients := .ok ()
    liveNew := fun _ => .ok []
    archiveSearch := fun _ _ => .ok ["y"]
    liveDetail := fun _ => .ok subIn }

/-- An eligible submission with id `x` created at second 100 (in day 0). -/
def subX : Submission :=
  { id := "x", title := "t1", selftext := "body 1", author := "u1", score := 5
    created_utc := 100, url := "http://1", num_comments := 1, upvote_ratio := 1
    removed_by_category := false }

/-- An eligible submission with the same id `x`, created at second 86500
(in day 1), as returned by a detail lookup. -/
def subX2 : Submission :=
  { id := "x", title := "t2", selftext := "body 2", author := "u2", score := 7
    created_utc := 86500, url := "http://2", num_comments := 4, upvote_ratio := 1
    removed_by_category := false }

/-- An environment in which the LIVE listing yields `subX` while processing
day 0 and nothing while processing day 1, and the archive search for day 1
returns the identifier `x` again, whose detail record is `subX2`.  Both
windows are within the horizon (`now` is 10 days in). -/
def cEnvDup : SourceEnv :=
  { now := 864000
    initClients := .ok ()
    liveNew := fun t => if t = 0 then .ok [subX] else .ok []
    archiveSearch := fun a _ => if a = 86400 then .ok ["x"] else .ok []
    liveDetail := fun _ => .ok subX2 }

/-- An environment whose sources are reachable but empty. -/
def cEnvQuiet : SourceEnv :=
  { now := 0
    initClients := .ok ()
    liveNew := fun _ => .ok []
    archiveSearch := fun _ _ => .ok []
    liveDetail := fun _ => .error "nope" }

/-- An eligible submission with id `b` created at second 86500 (in day 1). -/
def subB : Submission :=
  { id := "b", title := "tb", selftext := "body b", author := "ub", score := 2
    created_utc := 86500, url := "http://b", num_comments := 0, upvote_ratio := 1
    removed_by_category := false }

/-- An environment in which the LIVE call raises an authentication error
while processing the window starting at 0 and succeeds afterwards. -/
def cEnvAuth : SourceEnv :=
  { now := 0
    initClients := .ok ()
    liveNew := fun t =>
      if t = 0 then .error "received 401 HTTP response" else .ok [subB]
    archiveSearch := fun _ _ => .ok []
    liveDetail := fun _ => .error "nope" }

/-- Two eligible submissions returned by archive detail lookups. -/
def subP : Submission :=
  { id := "p", title := "tp", selftext := "body p", author := "up", score := 1
    created_utc := 100, url := "http://p", num_comments := 0, upvote_ratio := 1
    removed_by_category := false }

/-- Second successful archive detail record. -/
def subQ : Submission :=
  { id := "q", title := "tq", selftext := "body q", author := "uq", score := 1
    created_utc := 200, url := "http://q", num_comments := 0, upvote_ratio := 1
    removed_by_category := false }

/-- An out-of-horizon environment whose archive search returns three
identifiers, the middle of which fails its detail lookup. -/
def cEnvDetail : SourceEnv :=
  { now := 8640000
    initClients := .ok ()
    liveNew := fun _ => .ok []
    archiveSearch := fun _ _ => .ok ["p", "bad", "q"]
    liveDetail := fun i =>
      if i = "p" then .ok subP else if i = "q" then .ok subQ else .error "404" }

/-- The environment of `RedditS3Pipeline.run_pipeline`
(`lambda/reddit_pipeline/lambda_function.py`): the behaviors of
`fetch_stories` and `upload_to_s3`, each possibly raising. -/
structure LambdaEnv where
  fetch_stories : Except String (List Story)
  upload : List Story → Except String Unit

/-- `run_pipeline` (lines 32-49): fetch, upload only when the story list is
truthy (nonempty), return `(200, success body)`; any exception is caught
and turned into `(500, failure body)`.  The body strings follow the
f-strings of lines 42 and 48 (the surrounding `json.dumps` quoting is
elided). -/
def run_pipeline (env : LambdaEnv) : Nat × String :=
  match env.fetch_stories with
  | .error e => (500, "Pipeline failed: " ++ e)
  | .ok stories =>
    match (if stories.isEmpty then .ok () else env.upload stories :
        Except String Unit) with
    | .error e => (500, "Pipeline failed: " ++ e)
    | .ok _ =>
      (200, "Successfully processed " ++ toString stories.length ++ " stories")

/-! ### Helper lemmas -/

theorem get_date_range_of_lt (s e : Int) (h : s < e) :
    get_date_range s e = (s, s + 86400) :: get_date_range (s + 86400) e := by
  rw [get_date_range]
  simp [h]

theorem get_date_range_of_ge (s e : Int) (h : e ≤ s) :
    get_date_range s e = [] := by
  rw [get_date_range]
  simp [show ¬ s < e by omega]

theorem get_date_range_head (s e : Int) (h : s < e) :
    (get_date_range s e).head? = some (s, s + 86400) := by
  rw [get_date_range_of_lt s e h]
  rfl

theorem eligible_spec {s : Submission} (h : eligible s = true) :
    s.removed_by_category = false ∧ s.selftext ≠ "" := by
  simp only [eligible, Bool.and_eq_true, Bool.not_eq_true', bne_iff_ne, ne_eq] at h
  exact ⟨h.1, h.2⟩

theorem mem_liveStories {subs : List Submission} {wstart wend : Int} {st : Story}
    (h : st ∈ liveStories subs wstart wend) :
    ∃ s ∈ subs, (wstart ≤ s.created_utc ∧ s.created_utc < wend) ∧
      eligible s = true ∧ st = mkStory s := by
  simp only [liveStories, List.mem_filterMap] at h
  obtain ⟨s, hs, hsome⟩ := h
  by_cases hw : wstart ≤ s.created_utc ∧ s.created_utc < wend
  · by_cases he : eligible s = true
    · rw [if_pos hw, if_pos he] at hsome
      exact ⟨s, hs, hw, he, (Option.some.inj hsome).symm⟩
    · rw [if_pos hw, if_neg he] at hsome
      exact absurd hsome (by simp)
  · rw [if_neg hw] at hsome
    exact absurd hsome (by simp)

theorem mem_archiveStories {detail : String → Except String Submission}
    {ids : List String} {st : Story} (h : st ∈ archiveStories detail ids) :
    ∃ i ∈ ids, ∃ s, detail i = .ok s ∧ eligible s = true ∧ st = mkStory s := by
  simp only [archiveStories, List.mem_filterMap] at h
  obtain ⟨i, hi, hsome⟩ := h
  cases hd : detail i with
  | error e =>
    rw [hd] at hsome
    exact absurd hsome (by simp)
  | ok s =>
    rw [hd] at hsome
    have hsome' : (if eligible s = true then some (mkStory s) else none) =
        some st := hsome
    by_cases he : eligible s = true
    · rw [if_pos he] at hsome'
      exact ⟨i, hi, s, hd, he, (Option.some.inj hsome').symm⟩
    · rw [if_neg he] at hsome'
      exact absurd hsome' (by simp)

theorem processWindow_out (env : SourceEnv) (wstart wend : Int)
    (hh : inHorizon env.now wstart = false) :
    processWindow env wstart wend =
      match env.archiveSearch wstart wend with
      | .error e => (.error e, [Source.archive])
      | .ok ids => (.ok (archiveStories env.liveDetail ids), [Source.archive]) := by
  cases ha : env.archiveSearch wstart wend <;>
    simp [processWindow, hh, ha]

theorem processWindow_live_err (env : SourceEnv) (wstart wend : Int) (e : String)
    (hh : inHorizon env.now wstart = true)
    (hl : env.liveNew wstart = .error e) :
    processWindow env wstart wend = (.error e, [Source.live]) := by
  simp [processWindow, hh, hl]

theorem processWindow_live_ok (env : SourceEnv) (wstart wend : Int)
    (subs : List Submission)
    (hh : inHorizon env.now wstart = true)
    (hl : env.liveNew wstart = .ok subs) :
    processWindow env wstart wend =
      if (liveStories subs wstart wend).isEmpty then
        match env.archiveSearch wstart wend with
        | .error e => (.error e, [Source.live, Source.archive])
        | .ok ids =>
          (.ok (archiveStories env.liveDetail ids), [Source.live, Source.archive])
      else (.ok (liveStories subs wstart wend), [Source.live]) := by
  by_cases hemp : (liveStories subs wstart wend).isEmpty = true
  · cases ha : env.archiveSearch wstart wend <;>
      simp [processWindow, hh, hl, hemp, ha]
  · simp [processWindow, hh, hl, hemp]

theorem processWindow_ok_cases (env : SourceEnv) (wstart wend : Int)
    (l : List Story) (hok : (processWindow env wstart wend).1 = .ok l) :
    (∃ subs, env.liveNew wstart = .ok subs ∧ l = liveStories subs wstart wend)
    ∨ (∃ ids, env.archiveSearch wstart wend = .ok ids ∧
        l = archiveStories env.liveDetail ids) := by
  cases hh : inHorizon env.now wstart with
  | false =>
    rw [processWindow_out env wstart wend hh] at hok
    cases ha : env.archiveSearch wstart wend with
    | error e =>
      rw [ha] at hok
      exact absurd hok (by simp)
    | ok ids =>
      rw [ha] at hok
      simp only at hok
      exact Or.inr ⟨ids, rfl, (Except.ok.inj hok).symm⟩
  | true =>
    cases hl : env.liveNew wstart with
    | error e =>
      rw [processWindow_live_err env wstart wend e hh hl] at hok
      exact absurd hok (by simp)
    | ok subs =>
      rw [processWindow_live_ok env wstart wend subs hh hl] at hok
      by_cases hemp : (liveStories subs wstart wend).isEmpty = true
      · rw [if_pos hemp] at hok
        cases ha : env.archiveSearch wstart wend with
        | error e =>
          rw [ha] at hok
          exact absurd hok (by simp)
        | ok ids =>
          rw [ha] at hok
          simp only at hok
          exact Or.inr ⟨ids, rfl, (Except.ok.inj hok).symm⟩
      · rw [if_neg hemp] at hok
        simp only at hok
        exact Or.inl ⟨subs, rfl, (Except.ok.inj hok).symm⟩

theorem processWindow_ids_sub (env : SourceEnv) (a b : Int) (l : List Story)
    (hok : (processWindow env a b).1 = .ok l) :
    ∀ st ∈ l, st.id ∈ windowStoryIds env a b := by
  intro st hst
  rcases processWindow_ok_cases env a b l hok with ⟨subs, hl, rfl⟩ | ⟨ids, ha, rfl⟩
  · unfold windowStoryIds
    rw [hl]
    exact List.mem_append_left _ (List.mem_map_of_mem Story.id hst)
  · unfold windowStoryIds
    rw [ha]
    exact List.mem_append_right _ (List.mem_map_of_mem Story.id hst)

theorem get_date_range_width (s e : Int) :
    ∀ w ∈ get_date_range s e, w.2 = w.1 + 86400 := by
  intro w hw
  by_cases h : s < e
  · rw [get_date_range_of_lt s e h] at hw
    rcases List.mem_cons.mp hw with rfl | hw
    · rfl
    · exact get_date_range_width (s + 86400) e w hw
  · rw [get_date_range_of_ge s e (by omega)] at hw
    exact absurd hw (List.not_mem_nil w)
termination_by (e - s).toNat
decreasing_by omega

theorem get_date_range_start_le (s e : Int) :
    ∀ w ∈ get_date_range s e, s ≤ w.1 ∧ w.1 < e := by
  intro w hw
  by_cases h : s < e
  · rw [get_date_range_of_lt s e h] at hw
    rcases List.mem_cons.mp hw with rfl | hw
    · exact ⟨le_refl s, h⟩
    · have := get_date_range_start_le (s + 86400) e w hw
      omega
  · rw [get_date_range_of_ge s e (by omega)] at hw
    exact absurd hw (List.not_mem_nil w)
termination_by (e - s).toNat
decreasing_by omega

theorem get_date_range_sorted (s e : Int) :
    (get_date_range s e).Pairwise (fun a b => a.2 ≤ b.1) := by
  by_cases h : s < e
  · rw [get_date_range_of_lt s e h]
    refine List.pairwise_cons.mpr ⟨?_, get_date_range_sorted (s + 86400) e⟩
    intro w hw
    exact (get_date_range_start_le (s + 86400) e w hw).1
  · rw [get_date_range_of_ge s e (by omega)]
    exact List.Pairwise.nil
termination_by (e - s).toNat
decreasing_by omega

theorem get_date_range_chain (s e : Int) :
    (get_date_range s e).Chain' (fun a b => a.2 = b.1) := by
  by_cases h : s < e
  · rw [get_date_range_of_lt s e h]
    refine List.chain'_cons'.mpr ⟨?_, get_date_range_chain (s + 86400) e⟩
    intro b hb
    by_cases h2 : s + 86400 < e
    · rw [get_date_range_head (s + 86400) e h2] at hb
      simp only [Option.mem_def, Option.some.injEq] at hb
      rw [← hb]
    · rw [get_date_range_of_ge (s + 86400) e (by omega)] at hb
      exact absurd hb (by simp)
  · rw [get_date_range_of_ge s e (by omega)]
    exact List.chain'_nil
termination_by (e - s).toNat
decreasing_by omega

theorem get_date_range_cover (s e t : Int) :
    (∃ w ∈ get_date_range s e, w.1 ≤ t ∧ t < w.2) ↔
      (s ≤ t ∧ t < s + 86400 * (get_date_range s e).length) := by
  by_cases h : s < e
  · rw [get_date_range_of_lt s e h]
    have ih := get_date_range_cover (s + 86400) e t
    simp only [List.mem_cons, List.length_cons]
    constructor
    · rintro ⟨w, hw | hw, hb⟩
      · rw [hw] at hb
        have hlen : (0:Int) ≤ (get_date_range (s + 86400) e).length := by positivity
        push_cast
        simp only at hb
        omega
      · have := ih.mp ⟨w, hw, hb⟩
        push_cast
        push_cast at this
        omega
    · rintro ⟨h1, h2⟩
      by_cases ht : t < s + 86400
      · exact ⟨(s, s + 86400), Or.inl rfl, h1, ht⟩
      · push_cast at h2
        obtain ⟨w, hw, hb⟩ := ih.mpr ⟨by omega, by omega⟩
        exact ⟨w, Or.inr hw, hb⟩
  · rw [get_date_range_of_ge s e (by omega)]
    simp only [List.length_nil, List.not_mem_nil]
    constructor
    · rintro ⟨w, hw, _⟩
      exact absurd hw (by simp)
    · rintro ⟨h1, h2⟩
      push_cast at h2
      omega
termination_by (e - s).toNat
decreasing_by omega

theorem get_date_range_len (s e : Int) (h : s < e) :
    e ≤ s + 86400 * (get_date_range s e).length ∧
      s + 86400 * (get_date_range s e).length < e + 86400 := by
  rw [get_date_range_of_lt s e h]
  by_cases h2 : s + 86400 < e
  · have ih := get_date_range_len (s + 86400) e h2
    simp only [List.length_cons]
    push_cast
    push_cast at ih
    omega
  · rw [get_date_range_of_ge (s + 86400) e (by omega)]
    simp only [List.length_cons, List.length_nil]
    push_cast
    omega
termination_by (e - s).toNat
decreasing_by omega

theorem get_date_range_0_172800 :
    get_date_range 0 172800 = [(0, 86400), (86400, 172800)] := by
  rw [get_date_range_of_lt 0 172800 (by norm_num),
    get_date_range_of_lt (0 + 86400) 172800 (by norm_num),
    get_date_range_of_ge (0 + 86400 + 86400) 172800 (by norm_num)]
  norm_num

theorem runBatches_mem (env : SourceEnv) (sub : String) (ws : List (Int × Int))
    (b : (String × Int) × List Story) (hb : b ∈ runBatches env sub ws) :
    ∃ w ∈ ws, ∀ i ∈ b.2.map Story.id, i ∈ windowStoryIds env w.1 w.2 := by
  induction ws with
  | nil => exact absurd hb (by simp [runBatches])
  | cons w ws ih =>
    simp only [runBatches] at hb
    cases hpw : (processWindow env w.1 w.2).1 with
    | error e =>
      rw [hpw] at hb
      obtain ⟨w', hw', hsub⟩ := ih hb
      exact ⟨w', List.mem_cons_of_mem w hw', hsub⟩
    | ok stories =>
      rw [hpw] at hb
      have hb' : b ∈ (if stories.isEmpty = true then runBatches env sub ws
          else (batchKey sub w.1, stories) :: runBatches env sub ws) := hb
      by_cases hemp : stories.isEmpty = true
      · rw [if_pos hemp] at hb'
        obtain ⟨w', hw', hsub⟩ := ih hb'
        exact ⟨w', List.mem_cons_of_mem w hw', hsub⟩
      · rw [if_neg hemp] at hb'
        rcases List.mem_cons.mp hb' with rfl | hb'
        · refine ⟨w, List.mem_cons_self w ws, ?_⟩
          intro i hi
          simp only [List.mem_map] at hi
          obtain ⟨st, hst, rfl⟩ := hi
          exact processWindow_ids_sub env w.1 w.2 stories hpw st hst
        · obtain ⟨w', hw', hsub⟩ := ih hb'
          exact ⟨w', List.mem_cons_of_mem w hw', hsub⟩

/-! ### Claims -/

/-- C1: for every day window, the sources are tried in strict fallback
order.  When the window start is within the 90-day horizon the LIVE
adapter is queried first; the ARCHIVE adapter is queried exactly when the
LIVE pass yielded zero eligible records or the window is outside the
horizon; the two sources are never merged for one window — the result is
either exactly the LIVE survivors (when nonempty) or exactly the ARCHIVE
survivors, as the recorded query traces show. -/
theorem fallback_policy_strict (env : SourceEnv) (wstart wend : Int)
    (subs : List Submission) (ids : List String)
    (hl : env.liveNew wstart = .ok subs)
    (ha : env.archiveSearch wstart wend = .ok ids) :
    (inHorizon env.now wstart = true →
      (liveStories subs wstart wend ≠ [] →
        processWindow env wstart wend =
          (.ok (liveStories subs wstart wend), [.live]))
      ∧ (liveStories subs wstart wend = [] →
        processWindow env wstart wend =
          (.ok (archiveStories env.liveDetail ids), [.live, .archive])))
    ∧ (inHorizon env.now wstart = false →
      processWindow env wstart wend =
        (.ok (archiveStories env.liveDetail ids), [.archive])) := by
  refine ⟨fun hh => ⟨fun hne => ?_, fun hemp => ?_⟩, fun hh => ?_⟩
  · rw [processWindow_live_ok env wstart wend subs hh hl,
      if_neg (by simpa using hne)]
  · rw [processWindow_live_ok env wstart wend subs hh hl,
      if_pos (by simp [hemp]), ha]
  · rw [processWindow_out env wstart wend hh, ha]

/-- Witness for C1 at a concrete in-horizon window whose LIVE pass finds
one record: the batch is the LIVE result and only LIVE was queried. -/
theorem fallback_policy_strict_witness :
    processWindow cEnvLive 0 86400 = (.ok [mkStory subA], [Source.live]) :=
  ((fallback_policy_strict cEnvLive 0 86400 [subA] [] rfl rfl).1
    (by decide)).1 (by decide)

/-- C4 counterexample: for `overall_start = 0`, `overall_end = 100000`
(not a whole number of days) the generator produces the window
`(86400, 172800)`, which contains the instant `150000` even though
`150000` is outside `[0, 100000)` — the sequence does not cover exactly
the requested range. -/
theorem coverage_overshoot :
    get_date_range 0 100000 = [(0, 86400), (86400, 172800)]
    ∧ ((86400:Int) ≤ 150000 ∧ (150000:Int) < 172800)
    ∧ ¬ ((0:Int) ≤ 150000 ∧ (150000:Int) < 100000) := by
  refine ⟨?_, by omega, by omega⟩
  rw [get_date_range_of_lt 0 100000 (by norm_num),
    get_date_range_of_lt (0 + 86400) 100000 (by norm_num),
    get_date_range_of_ge (0 + 86400 + 86400) 100000 (by norm_num)]
  norm_num

/-- C4 as amended: for `overall_start < overall_end` the generator yields a
finite nonempty sequence starting at `overall_start` in which every window
is exactly one day, consecutive windows share their boundary, windows are
pairwise non-overlapping, and the union of the windows is exactly
`[overall_start, overall_start + 86400·n)` for `n` the number of windows —
an interval that contains `[overall_start, overall_end)` and overshoots it
by less than one day (equality exactly when the range is a whole number of
days). -/
theorem date_range_amended (s e : Int) (h : s < e) :
    (get_date_range s e).head? = some (s, s + 86400)
    ∧ (∀ w ∈ get_date_range s e, w.2 = w.1 + 86400)
    ∧ (get_date_range s e).Chain' (fun a b => a.2 = b.1)
    ∧ (get_date_range s e).Pairwise (fun a b => a.2 ≤ b.1)
    ∧ (∀ t : Int, (∃ w ∈ get_date_range s e, w.1 ≤ t ∧ t < w.2) ↔
        (s ≤ t ∧ t < s + 86400 * (get_date_range s e).length))
    ∧ e ≤ s + 86400 * (get_date_range s e).length
    ∧ s + 86400 * (get_date_range s e).length < e + 86400 :=
  ⟨get_date_range_head s e h, get_date_range_width s e,
    get_date_range_chain s e, get_date_range_sorted s e,
    fun t => get_date_range_cover s e t,
    (get_date_range_len s e h).1, (get_date_range_len s e h).2⟩

/-- Witness for C4's amended claim at the range `[0, 100000)`: the union of
the produced windows is `[0, 86400·n)` with `100000 ≤ 86400·n <
100000 + 86400`. -/
theorem date_range_amended_witness :
    (100000:Int) ≤ 0 + 86400 * ((get_date_range 0 100000).length : Int)
    ∧ (0:Int) + 86400 * ((get_date_range 0 100000).length : Int) <
      100000 + 86400 :=
  ⟨(date_range_amended 0 100000 (by norm_num)).2.2.2.2.2.1,
    (date_range_amended 0 100000 (by norm_num)).2.2.2.2.2.2⟩

/-- C5: every record emitted by a window — over either path — comes from a
candidate submission that is not flagged removed-by-moderation and whose
body text is nonempty; a removed or empty-body candidate is excluded by the
shared eligibility test and never appears. -/
theorem removed_or_empty_excluded (env : SourceEnv) (wstart wend : Int)
    (l : List Story) (hok : (processWindow env wstart wend).1 = .ok l) :
    ∀ st ∈ l, ∃ s : Submission, s.removed_by_category = false ∧
      s.selftext ≠ "" ∧ st = mkStory s := by
  intro st hst
  rcases processWindow_ok_cases env wstart wend l hok with
    ⟨subs, hl, rfl⟩ | ⟨ids, ha, rfl⟩
  · obtain ⟨s, _, _, he, hmk⟩ := mem_liveStories hst
    exact ⟨s, (eligible_spec he).1, (eligible_spec he).2, hmk⟩
  · obtain ⟨i, _, s, _, he, hmk⟩ := mem_archiveStories hst
    exact ⟨s, (eligible_spec he).1, (eligible_spec he).2, hmk⟩

/-- Witness for C5: the one record emitted by `cEnvLive` for the window
`[0, 86400)` arises from an eligible (non-removed, nonempty-body)
submission. -/
theorem removed_or_empty_excluded_witness :
    ∃ s : Submission, s.removed_by_category = false ∧ s.selftext ≠ "" ∧
      mkStory subA = mkStory s :=
  removed_or_empty_excluded cEnvLive 0 86400 [mkStory subA] rfl
    (mkStory subA) (List.mem_singleton.mpr rfl)

/-- C2 counterexample: in the environment `cEnvArchOut` the window
`[0, 86400)` is outside the horizon, the archive search returns the
identifier `x`, and its detail record was created at second 200000 — the
ARCHIVE branch performs no `created_at` check, so the emitted batch keeps a
record whose timestamp is outside the window instead of discarding it. -/
theorem archive_record_out_of_window :
    (processWindow cEnvArchOut 0 86400).1 = .ok [mkStory subOut]
    ∧ ¬ ((0:Int) ≤ (mkStory subOut).created_utc ∧
        (mkStory subOut).created_utc < 86400) := by
  exact ⟨rfl, by decide⟩

/-- C2 as amended: records from the LIVE path always satisfy
`W.start ≤ created_at < W.end` (the branch filters client-side); records
from the ARCHIVE path are emitted without any `created_at` re-check, so
window containment of the whole batch holds exactly under the assumption
that every identifier returned by the archive search has its detail
`created_utc` inside the window. -/
theorem window_containment_amended (env : SourceEnv) (wstart wend : Int)
    (l : List Story) (hok : (processWindow env wstart wend).1 = .ok l)
    (harch : ∀ ids, env.archiveSearch wstart wend = .ok ids →
      ∀ i ∈ ids, ∀ s : Submission, env.liveDetail i = .ok s →
        wstart ≤ s.created_utc ∧ s.created_utc < wend) :
    ∀ st ∈ l, wstart ≤ st.created_utc ∧ st.created_utc < wend := by
  intro st hst
  rcases processWindow_ok_cases env wstart wend l hok with
    ⟨subs, hl, rfl⟩ | ⟨ids, ha, rfl⟩
  · obtain ⟨s, _, hw, _, hmk⟩ := mem_liveStories hst
    rw [hmk]
    exact hw
  · obtain ⟨i, hi, s, hdet, _, hmk⟩ := mem_archiveStories hst
    rw [hmk]
    exact harch ids ha i hi s hdet

/-- Witness for C2's amended claim: in `cEnvArchIn` the archive returns only
the identifier `y`, whose detail record lies inside the window, so the
emitted record's timestamp is inside the window. -/
theorem window_containment_amended_witness :
    (0:Int) ≤ (mkStory subIn).created_utc ∧
      (mkStory subIn).created_utc < 86400 := by
  refine window_containment_amended cEnvArchIn 0 86400 [mkStory subIn] rfl
    ?_ (mkStory subIn) (List.mem_singleton.mpr rfl)
  intro ids hids i hi s hs
  have hids' : Except.ok (ε := String) ["y"] = .ok ids := hids
  cases Except.ok.inj hids'
  simp only [List.mem_singleton] at hi
  cases hi
  have hs' : Except.ok (ε := String) subIn = .ok s := hs
  cases Except.ok.inj hs'
  decide

/-- C3 counterexample: in `cEnvDup` the LIVE pass of day 0 returns the
submission with id `x` and the ARCHIVE fallback of day 1 returns the same
id `x` (with a day-1 detail record); no seen-id check exists, so the same
identifier appears in two different batches of one run. -/
theorem dup_id_across_batches :
    runBatches cEnvDup "sub" (get_date_range 0 172800) =
      [(("sub", 0), [mkStory subX]), (("sub", 1), [mkStory subX2])]
    ∧ (mkStory subX).id = (mkStory subX2).id
    ∧ (("sub", (0:Int)) : String × Int) ≠ ("sub", 1) := by
  refine ⟨?_, rfl, by decide⟩
  rw [get_date_range_0_172800]
  rfl

/-- C3 as amended: the orchestrator keeps no seen-id state and performs no
dropping before batch emission; each batch is drawn entirely from the
responses its own window received, so identifiers stay unique across the
run's batches exactly under the assumption that the sources never yield
the same identifier for two different windows. -/
theorem dedup_amended (env : SourceEnv) (sub : String) (ws : List (Int × Int))
    (hdisj : ws.Pairwise (fun w1 w2 =>
      (windowStoryIds env w1.1 w1.2).Disjoint (windowStoryIds env w2.1 w2.2))) :
    (runBatches env sub ws).Pairwise (fun b1 b2 =>
      (b1.2.map Story.id).Disjoint (b2.2.map Story.id)) := by
  induction ws with
  | nil => exact List.Pairwise.nil
  | cons w ws ih =>
    obtain ⟨hd, htl⟩ := List.pairwise_cons.mp hdisj
    simp only [runBatches]
    cases hpw : (processWindow env w.1 w.2).1 with
    | error e => exact ih htl
    | ok stories =>
      show List.Pairwise (fun b1 b2 =>
          (b1.2.map Story.id).Disjoint (b2.2.map Story.id))
        (if stories.isEmpty = true then runBatches env sub ws
          else (batchKey sub w.1, stories) :: runBatches env sub ws)
      by_cases hemp : stories.isEmpty = true
      · rw [if_pos hemp]
        exact ih htl
      · rw [if_neg hemp]
        refine List.pairwise_cons.mpr ⟨?_, ih htl⟩
        intro b hb i hi hib
        obtain ⟨w', hw', hsub⟩ := runBatches_mem env sub ws b hb
        have h1 : i ∈ windowStoryIds env w.1 w.2 := by
          simp only [List.mem_map] at hi
          obtain ⟨st, hst, rfl⟩ := hi
          exact processWindow_ids_sub env w.1 w.2 stories hpw st hst
        exact hd w' hw' h1 (hsub i hib)

/-- Witness for C3's amended claim: with empty sources the candidate id
sets of the two windows are disjoint and the run's batches (none) carry
pairwise-disjoint id sets. -/
theorem dedup_amended_witness :
    (runBatches cEnvQuiet "sub" [(0, 86400), (86400, 172800)]).Pairwise
      (fun b1 b2 => (b1.2.map Story.id).Disjoint (b2.2.map Story.id)) := by
  refine dedup_amended cEnvQuiet "sub" [(0, 86400), (86400, 172800)] ?_
  refine List.Pairwise.cons ?_ (List.pairwise_singleton _ _)
  intro w hw i hi
  have hi' : i ∈ ([] : List String) := hi
  exact absurd hi' (List.not_mem_nil i)

/-- C6 counterexample: in `cEnvAuth` the LIVE call of the first window
raises an authentication error, yet the run neither aborts nor propagates:
the per-window handler absorbs the exception and the run continues,
returning successfully with the second window's batch. -/
theorem auth_error_absorbed :
    cEnvAuth.liveNew 0 = .error "received 401 HTTP response"
    ∧ download_subreddit_by_date cEnvAuth "sub" 0 172800 =
        .ok [(("sub", 1), [mkStory subB])] := by
  refine ⟨rfl, ?_⟩
  have h2 : download_subreddit_by_date cEnvAuth "sub" 0 172800 =
      .ok (runBatches cEnvAuth "sub" (get_date_range 0 172800)) := rfl
  rw [h2, get_date_range_0_172800]
  rfl

/-- C6 as amended: every exception raised while processing a window —
credential/authentication failures from the source client included — is
absorbed locally and the run advances to the next window; only a failure
of client construction, which happens before the first window, propagates
to the caller (and when construction succeeds the run always returns
successfully). -/
theorem error_propagation_amended (env : SourceEnv) (sub : String)
    (s e : Int) :
    (∀ msg, env.initClients = .error msg →
      download_subreddit_by_date env sub s e = .error msg)
    ∧ (env.initClients = .ok () →
      ∃ bs, download_subreddit_by_date env sub s e = .ok bs)
    ∧ (∀ wstart wend err ws, (processWindow env wstart wend).1 = .error err →
      runBatches env sub ((wstart, wend) :: ws) = runBatches env sub ws) := by
  refine ⟨fun msg hm => ?_, fun hi => ?_, fun wstart wend err ws hpw => ?_⟩
  · simp only [download_subreddit_by_date, hm]
  · refine ⟨runBatches env sub (get_date_range s e), ?_⟩
    unfold download_subreddit_by_date
    rw [hi]
  · simp only [runBatches]
    rw [hpw]

/-- Witness for C6's amended claim: with successfully constructed clients
(`cEnvAuth`) the run returns successfully even though a window raised. -/
theorem error_propagation_amended_witness :
    ∃ bs, download_subreddit_by_date cEnvAuth "sub" 0 172800 = .ok bs :=
  (error_propagation_amended cEnvAuth "sub" 0 172800).2.1 rfl

/-- C7: in the ARCHIVE path, an identifier whose detail lookup fails is
skipped: the window still succeeds and its batch consists of exactly the
records enriched from the identifiers before and after the failing one. -/
theorem detail_failure_skipped (env : SourceEnv) (wstart wend : Int)
    (pre post : List String) (bad e : String)
    (ha : env.archiveSearch wstart wend = .ok (pre ++ bad :: post))
    (hfail : env.liveDetail bad = .error e)
    (hfb : inHorizon env.now wstart = false ∨
      ∃ subs, env.liveNew wstart = .ok subs ∧ liveStories subs wstart wend = []) :
    (processWindow env wstart wend).1 =
      .ok (archiveStories env.liveDetail pre ++
        archiveStories env.liveDetail post) := by
  have harch : archiveStories env.liveDetail (pre ++ bad :: post) =
      archiveStories env.liveDetail pre ++ archiveStories env.liveDetail post := by
    simp only [archiveStories, List.filterMap_append, List.filterMap_cons, hfail]
  rcases hfb with hh | ⟨subs, hl, hemp⟩
  · rw [processWindow_out env wstart wend hh, ha]
    simp only
    rw [harch]
  · cases hh : inHorizon env.now wstart with
    | false =>
      rw [processWindow_out env wstart wend hh, ha]
      simp only
      rw [harch]
    | true =>
      rw [processWindow_live_ok env wstart wend subs hh hl,
        if_pos (by simp [hemp]), ha]
      simp only
      rw [harch]

/-- Witness for C7 at `cEnvDetail`: the middle identifier `bad` fails its
lookup; the window succeeds with the records of `p` and `q`. -/
theorem detail_failure_skipped_witness :
    (processWindow cEnvDetail 0 86400).1 =
      .ok (archiveStories cEnvDetail.liveDetail ["p"] ++
        archiveStories cEnvDetail.liveDetail ["q"]) :=
  detail_failure_skipped cEnvDetail 0 86400 ["p"] ["q"] "bad" "404" rfl rfl
    (Or.inl (by decide))

/-- C8: a window in which zero records survive filtering performs no write:
removing that window from anywhere in the run leaves the written-batch
sequence unchanged (the blob-store state is untouched by it), and nothing
is treated as an error; the DAG variant's upload guard likewise leaves the
store unchanged on an empty story list. -/
theorem empty_window_no_write (env : SourceEnv) (sub : String)
    (wstart wend : Int) (pre post : List (Int × Int))
    (hempty : (processWindow env wstart wend).1 = .ok []) :
    runBatches env sub (pre ++ (wstart, wend) :: post) =
      runBatches env sub (pre ++ post)
    ∧ ∀ store, dag_upload_to_s3 [] (batchKey sub wstart) store = store := by
  constructor
  · induction pre with
    | nil =>
      simp only [List.nil_append, runBatches]
      rw [hempty]
      rfl
    | cons w ws ih =>
      simp only [List.cons_append, runBatches, List.append_eq]
      rw [ih]
  · intro store
    rfl

/-- Witness for C8: in `cEnvQuiet` the first window survives nothing and
contributes no write to the run. -/
theorem empty_window_no_write_witness :
    runBatches cEnvQuiet "sub" ([] ++ (0, 86400) :: [(86400, 172800)]) =
      runBatches cEnvQuiet "sub" ([] ++ [(86400, 172800)]) :=
  (empty_window_no_write cEnvQuiet "sub" 0 86400 [] [(86400, 172800)] rfl).1

/-- C9 counterexample: for `overall_start = overall_end = 5` the window
generator raises nothing and yields the empty sequence, and the whole run
returns successfully with no batches, instead of failing with an
`InvalidRangeError` — no such error exists in the code. -/
theorem invalid_range_no_error :
    get_date_range 5 5 = []
    ∧ download_subreddit_by_date cEnvQuiet "sub" 5 5 = .ok [] := by
  have h0 : get_date_range 5 5 = [] := get_date_range_of_ge 5 5 le_rfl
  refine ⟨h0, ?_⟩
  have h2 : download_subreddit_by_date cEnvQuiet "sub" 5 5 =
      .ok (runBatches cEnvQuiet "sub" (get_date_range 5 5)) := rfl
  rw [h2, h0]
  rfl

/-- C9 as amended: for `overall_start ≥ overall_end` window generation
yields the empty sequence; no error is raised and no fetch is attempted —
for every environment with successfully constructed clients the run
returns successfully with no batches. -/
theorem invalid_range_amended (s e : Int) (h : e ≤ s) (env : SourceEnv)
    (sub : String) (hinit : env.initClients = .ok ()) :
    get_date_range s e = [] ∧
      download_subreddit_by_date env sub s e = .ok [] := by
  have h0 : get_date_range s e = [] := get_date_range_of_ge s e h
  refine ⟨h0, ?_⟩
  simp only [download_subreddit_by_date, hinit, h0]
  rfl

/-- Witness for C9's amended claim at the inverted range `(6, 4)`. -/
theorem invalid_range_amended_witness :
    get_date_range 6 4 = [] ∧
      download_subreddit_by_date cEnvQuiet "sub" 6 4 = .ok [] :=
  invalid_range_amended 6 4 (by norm_num) cEnvQuiet "sub" rfl

/-- C10: whatever the fetch and upload steps do — including raising —
`run_pipeline` always returns a response: status 200 with the
processed-count body when the pipeline succeeded, status 500 with the error
message on any failure.  `run_pipeline` is a total function into responses,
so no exception ever propagates to the Lambda caller. -/
theorem run_pipeline_total (env : LambdaEnv) :
    (∃ stories, env.fetch_stories = .ok stories ∧
      run_pipeline env =
        (200, "Successfully processed " ++ toString stories.length ++ " stories"))
    ∨ (∃ msg, run_pipeline env = (500, "Pipeline failed: " ++ msg)) := by
  unfold run_pipeline
  cases hf : env.fetch_stories with
  | error e => exact Or.inr ⟨e, rfl⟩
  | ok stories =>
    by_cases hemp : stories.isEmpty = true
    · exact Or.inl ⟨stories, rfl, by simp only [hemp, if_true]⟩
    · cases hu : env.upload stories with
      | error e2 =>
        refine Or.inr ⟨e2, ?_⟩
        simp only [hemp, if_false, hu]
        rfl
      | ok u =>
        refine Or.inl ⟨stories, rfl, ?_⟩
        simp only [hemp, if_false, hu]
        rfl
